import Mathlib

/-!
# SeaSafe rule-based simulator: verification of the collision-avoidance core

Shallow embedding of `ship.py`, `colreg.py` and `simulator.py` of the
seaSafe_RuleBased repository, over exact rational arithmetic.

Modelling conventions:
* Python floats are modelled as `ℚ` (exact arithmetic); `float('inf')` as
  `⊤ : WithTop ℚ`.
* The transcendental library functions (`math.cos`, `math.sin`, `math.atan2`
  composed with `math.degrees`, and `math.sqrt`/`np.linalg.norm`) are kept
  abstract as a record `Trig` of rational-valued functions; every theorem is
  universally quantified over this record.  The concrete record `axisTrig`
  used in concrete scenarios agrees with the real functions at every point
  those scenarios evaluate (axis-aligned angles and perfect squares).
* `np.linalg.norm v` is written `T.sqrtq (dot v v)`.
* Display-only fields (`name`, `color`) and logging (`ui_log`,
  `collisions_avoided`, the per-encounter counters) are omitted: no claim
  mentions them and they feed back into no computation.
* Python lists of ships are `List Ship`; the simulator mutates ships in
  place, which is modelled by explicit state passing (`List.set` at the
  ship's index).  `for s in self.ships: if s is not give_ship` is modelled
  by iterating over indices distinct from the probed ship's index.
-/

namespace SeaSafe

/-- The transcendental functions used by the source (`math.cos`/`math.sin`
on an angle given in degrees, `math.degrees(math.atan2 dy dx)`, and
`math.sqrt`), kept abstract.  All general theorems hold for every
instantiation. -/
structure Trig where
  cosd : ℚ → ℚ
  sind : ℚ → ℚ
  atan2d : ℚ → ℚ → ℚ
  sqrtq : ℚ → ℚ

/-- State of one vessel, from `ship.py` (`Ship.__init__`).  Display-only
fields are omitted. -/
structure Ship where
  x : ℚ
  y : ℚ
  heading : ℚ
  speed : ℚ
  dest_x : ℚ
  dest_y : ℚ
  length_m : ℚ := 100
  width_m : ℚ := 20
  arrival_time : Option ℚ := none
  heading_adjusted : ℚ := 0
deriving DecidableEq, Inhabited, Repr

/-- 2-d vectors are pairs of rationals. -/
def dot (a b : ℚ × ℚ) : ℚ := a.1 * b.1 + a.2 * b.2

/-- Pointwise sum of 2-d vectors. -/
def vadd (a b : ℚ × ℚ) : ℚ × ℚ := (a.1 + b.1, a.2 + b.2)

/-- Pointwise difference of 2-d vectors. -/
def vsub (a b : ℚ × ℚ) : ℚ × ℚ := (a.1 - b.1, a.2 - b.2)

/-- Scalar multiple of a 2-d vector. -/
def smul (t : ℚ) (a : ℚ × ℚ) : ℚ × ℚ := (t * a.1, t * a.2)

/-- `Ship.get_position_vector` (ship.py). -/
def Ship.get_position_vector (s : Ship) : ℚ × ℚ := (s.x, s.y)

/-- `Ship.get_velocity_vector` (ship.py): speed times the unit vector of the
heading. -/
def Ship.get_velocity_vector (T : Trig) (s : Ship) : ℚ × ℚ :=
  (s.speed * T.cosd s.heading, s.speed * T.sind s.heading)

/-- `Ship.distance_to_destination` (ship.py): Euclidean distance to the
destination, `math.sqrt(dx*dx + dy*dy)`. -/
def Ship.distance_to_destination (T : Trig) (s : Ship) : ℚ :=
  T.sqrtq ((s.dest_x - s.x) * (s.dest_x - s.x) + (s.dest_y - s.y) * (s.dest_y - s.y))

/-- `Ship.compute_heading_to_destination` (ship.py). -/
def Ship.compute_heading_to_destination (T : Trig) (s : Ship) : ℚ :=
  let dx := s.dest_x - s.x
  let dy := s.dest_y - s.y
  if |dx| < 1 / 1000000000 ∧ |dy| < 1 / 1000000000 then s.heading
  else T.atan2d dy dx

/-- `Ship.update_position` (ship.py): advance by `speed * dt_hours` along the
heading. -/
def Ship.update_position (T : Trig) (s : Ship) (dt_hours : ℚ) : Ship :=
  let distance_nm := s.speed * dt_hours
  { s with x := s.x + distance_nm * T.cosd s.heading,
           y := s.y + distance_nm * T.sind s.heading }

/-- `Ship.reset_heading_adjusted` (ship.py). -/
def Ship.reset_heading_adjusted (s : Ship) : Ship :=
  { s with heading_adjusted := 0 }

/-- `compute_cpa_and_tcpa` (colreg.py, lines 15-50): closest point of
approach distance and (clamped) time to it. -/
def compute_cpa_and_tcpa (T : Trig) (shipA shipB : Ship) : ℚ × ℚ :=
  let pA := shipA.get_position_vector
  let vA := shipA.get_velocity_vector T
  let pB := shipB.get_position_vector
  let vB := shipB.get_velocity_vector T
  let r0 := vsub pB pA
  let v_rel := vsub vB vA
  let denom := dot v_rel v_rel
  if |denom| < 1 / 1000000000 then
    (T.sqrtq (dot r0 r0), 0)
  else
    let t0 := -(dot r0 v_rel) / denom
    let t_cpa := if t0 < 0 then 0 else t0
    let r_cpa := vadd r0 (smul t_cpa v_rel)
    (T.sqrtq (dot r_cpa r_cpa), t_cpa)

/-- The closest-approach formula exactly as the specification words it
(spec §4.2 / claim C1): condition `dot(v,v) < 1e-9` without the absolute
value, and the time clamp written as `max 0`. -/
def cpa_spec (T : Trig) (shipA shipB : Ship) : ℚ × ℚ :=
  let r0 := vsub shipB.get_position_vector shipA.get_position_vector
  let v := vsub (shipB.get_velocity_vector T) (shipA.get_velocity_vector T)
  if dot v v < 1 / 1000000000 then
    (T.sqrtq (dot r0 r0), 0)
  else
    let t := max 0 (-(dot r0 v) / dot v v)
    (T.sqrtq (dot (vadd r0 (smul t v)) (vadd r0 (smul t v))), t)

lemma dot_self_nonneg (v : ℚ × ℚ) : 0 ≤ dot v v :=
  add_nonneg (mul_self_nonneg _) (mul_self_nonneg _)

lemma if_neg_eq_max (t : ℚ) : (if t < 0 then (0 : ℚ) else t) = max 0 t := by
  rcases lt_or_le t 0 with h | h
  · simp [h, max_eq_left h.le]
  · simp [not_lt.mpr h, max_eq_right h]

/-- **C1.** `compute_cpa_and_tcpa` computes exactly the specification's
formula: when `dot(v_rel, v_rel) < 1e-9` it returns `(‖r0‖, 0)`; otherwise
it returns `(‖r0 + v_rel·t‖, t)` with `t = max 0 (−dot(r0,v_rel)/dot(v_rel,v_rel))`,
i.e. a negative time-to-closest-approach is clamped to `0` and the present
distance is reported.  (The code tests `|denom| < 1e-9`, which coincides
with the spec's condition because `dot v v ≥ 0`, and clamps by an `if`,
which coincides with `max 0`.) -/
theorem compute_cpa_and_tcpa_matches_spec (T : Trig) (shipA shipB : Ship) :
    compute_cpa_and_tcpa T shipA shipB = cpa_spec T shipA shipB := by
  simp only [compute_cpa_and_tcpa, cpa_spec]
  rw [abs_of_nonneg (dot_self_nonneg _), if_neg_eq_max]

/-- The first normalization loop of `relative_bearing_degs` (colreg.py,
lines 73-74): `while rel > 180: rel -= 360`. -/
def normHi (r : ℚ) : ℚ :=
  if 180 < r then normHi (r - 360) else r
termination_by (⌈(r - 180) / 360⌉).toNat
decreasing_by
  have h1 : (r - 360 - 180) / 360 = (r - 180) / 360 - 1 := by ring
  rw [h1, Int.ceil_sub_one]
  have hpos : 0 < ⌈(r - 180) / 360⌉ :=
    Int.ceil_pos.mpr (div_pos (by linarith) (by norm_num))
  omega

/-- The second normalization loop of `relative_bearing_degs` (colreg.py,
lines 75-76): `while rel <= -180: rel += 360`. -/
def normLo (r : ℚ) : ℚ :=
  if r ≤ -180 then normLo (r + 360) else r
termination_by (⌈(-180 - r) / 360⌉ + 1).toNat
decreasing_by
  have h1 : (-180 - (r + 360)) / 360 = (-180 - r) / 360 - 1 := by ring
  rw [h1, Int.ceil_sub_one]
  have hnn : (0 : ℚ) ≤ (-180 - r) / 360 := by
    apply div_nonneg <;> linarith
  have hpos : (0 : ℤ) ≤ ⌈(-180 - r) / 360⌉ := by
    have := Int.le_ceil ((-180 - r) / 360)
    exact_mod_cast hnn.trans this
  omega

/-- `relative_bearing_degs` (colreg.py, lines 52-77): bearing of `to_ship`
relative to `from_ship`'s heading, normalized into `(-180, 180]` by the two
`while` loops. -/
def relative_bearing_degs (T : Trig) (from_ship to_ship : Ship) : ℚ :=
  let dx := to_ship.x - from_ship.x
  let dy := to_ship.y - from_ship.y
  let angle_abs := T.atan2d dy dx
  let rel := angle_abs - from_ship.heading
  normLo (normHi rel)

lemma normHi_le (r : ℚ) : normHi r ≤ 180 := by
  induction r using normHi.induct with
  | case1 r h ih => rw [normHi, if_pos h]; exact ih
  | case2 r h => rw [normHi, if_neg h]; linarith [not_lt.mp h]

lemma normHi_congr (r : ℚ) : ∃ k : ℤ, normHi r = r + 360 * k := by
  induction r using normHi.induct with
  | case1 r h ih =>
      obtain ⟨k, hk⟩ := ih
      exact ⟨k - 1, by rw [normHi, if_pos h, hk]; push_cast; ring⟩
  | case2 r h => exact ⟨0, by rw [normHi, if_neg h]; ring⟩

lemma normLo_gt (r : ℚ) : -180 < normLo r := by
  induction r using normLo.induct with
  | case1 r h ih => rw [normLo, if_pos h]; exact ih
  | case2 r h => rw [normLo, if_neg h]; linarith [not_le.mp h]

lemma normLo_le (r : ℚ) (hr : r ≤ 180) : normLo r ≤ 180 := by
  induction r using normLo.induct with
  | case1 r h ih => rw [normLo, if_pos h]; exact ih (by linarith)
  | case2 r h => rw [normLo, if_neg h]; exact hr

lemma normLo_congr (r : ℚ) : ∃ k : ℤ, normLo r = r + 360 * k := by
  induction r using normLo.induct with
  | case1 r h ih =>
      obtain ⟨k, hk⟩ := ih
      exact ⟨k + 1, by rw [normLo, if_pos h, hk]; push_cast; ring⟩
  | case2 r h => exact ⟨0, by rw [normLo, if_neg h]; ring⟩

/-- **C4.** For every pair of vessels (and every instantiation of the
transcendental functions), `relative_bearing_degs` returns a value in the
half-open interval `(-180, 180]`, and that value equals the absolute angle
of the vector from the first vessel to the second minus the first vessel's
heading, up to adding an integer multiple of 360. -/
theorem relative_bearing_degs_normalized (T : Trig) (A B : Ship) :
    (-180 < relative_bearing_degs T A B ∧ relative_bearing_degs T A B ≤ 180) ∧
    ∃ k : ℤ, relative_bearing_degs T A B =
      (T.atan2d (B.y - A.y) (B.x - A.x) - A.heading) + 360 * k := by
  unfold relative_bearing_degs
  refine ⟨⟨normLo_gt _, normLo_le _ (normHi_le _)⟩, ?_⟩
  obtain ⟨k1, h1⟩ := normHi_congr (T.atan2d (B.y - A.y) (B.x - A.x) - A.heading)
  obtain ⟨k2, h2⟩ := normLo_congr (normHi (T.atan2d (B.y - A.y) (B.x - A.x) - A.heading))
  exact ⟨k1 + k2, by rw [h2, h1]; push_cast; ring⟩

/-- `classify_encounter` (colreg.py, lines 79-107). -/
def classify_encounter (T : Trig) (shipA shipB : Ship) : String :=
  let bearingAB := |relative_bearing_degs T shipA shipB|
  let bearingBA := |relative_bearing_degs T shipB shipA|
  if bearingAB < 12.5 ∧ bearingBA < 12.5 then "head-on"
  else if (112.5 < bearingAB ∧ bearingAB < 250) ∨ (112.5 < bearingBA ∧ bearingBA < 250) then
    "overtaking"
  else "crossing"

/-- `is_on_starboard_side` (colreg.py, lines 109-124). -/
def is_on_starboard_side (T : Trig) (shipA shipB : Ship) : Prop :=
  -112.5 < relative_bearing_degs T shipA shipB ∧ relative_bearing_degs T shipA shipB < 0

instance (T : Trig) (shipA shipB : Ship) : Decidable (is_on_starboard_side T shipA shipB) :=
  inferInstanceAs (Decidable (_ ∧ _))

/-- `Simulator.assign_roles` (simulator.py, lines 327-353).  The method reads
no simulator state, so it is modelled as a function of the two ships and the
encounter type. -/
def assign_roles (T : Trig) (shipA shipB : Ship) (encounter_type : String) : String × String :=
  if encounter_type = "head-on" then ("Give-Way", "Give-Way")
  else if encounter_type = "crossing" then
    if is_on_starboard_side T shipA shipB then ("Give-Way", "Stand-On")
    else if is_on_starboard_side T shipB shipA then ("Stand-On", "Give-Way")
    else ("Give-Way", "Stand-On")
  else
    let bearingAB := |relative_bearing_degs T shipA shipB|
    if 112.5 < bearingAB ∧ bearingAB < 250 then ("Stand-On", "Give-Way")
    else ("Give-Way", "Stand-On")

/-- Simulator state (`Simulator.__init__`, simulator.py, lines 24-48).
Logging fields and encounter counters are omitted (display only). -/
structure Simulator where
  ships : List Ship
  time_step : ℚ
  safe_distance : ℚ
  heading_search_range : ℚ
  heading_search_step : ℚ
  current_time : ℚ := 0
  destination_threshold : ℚ := 1/10
  no_collision_count : ℕ := 0
deriving DecidableEq, Inhabited

/-- `np.arange start stop step`: the values `start + k·step` for
`0 ≤ k < ⌈(stop − start)/step⌉`.  (For `step = 0`, where numpy raises, the
rational division by zero makes the list empty; the simulator is never
configured that way.) -/
def arange (start stop step : ℚ) : List ℚ :=
  (List.range (⌈(stop - start) / step⌉.toNat)).map (fun (k : ℕ) => start + (k : ℚ) * step)

/-- Every element of `arange step stop step` (the candidate-offset list of
the starboard search) is strictly positive and strictly below `stop`. -/
lemma arange_mem_bounds (stop step : ℚ) (hstop : 0 < stop) :
    ∀ x ∈ arange step stop step, 0 < x ∧ x < stop := by
  intro x hx
  simp only [arange, List.mem_map, List.mem_range] at hx
  obtain ⟨k, hk', rfl⟩ := hx
  rcases lt_trichotomy step 0 with hst | hst | hst
  · exfalso
    have hr : (stop - step) / step < 0 :=
      div_neg_of_pos_of_neg (by linarith) hst
    have hc : ⌈(stop - step) / step⌉ ≤ 0 := by
      have := Int.ceil_le.mpr (le_of_lt hr : (stop - step) / step ≤ ((0 : ℤ) : ℚ))
      simpa using this
    omega
  · exfalso
    rw [hst] at hk'
    simp at hk'
  · constructor
    · have : (0 : ℚ) ≤ (k : ℚ) * step := mul_nonneg (by positivity) hst.le
      linarith
    · have hkc : (k : ℤ) < ⌈(stop - step) / step⌉ := by omega
      have hq : (k : ℚ) < (stop - step) / step := by
        have h1 : (k : ℤ) ≤ ⌈(stop - step) / step⌉ - 1 := by omega
        have h1' : (k : ℚ) ≤ (⌈(stop - step) / step⌉ : ℚ) - 1 := by exact_mod_cast h1
        have h2 : (⌈(stop - step) / step⌉ : ℚ) < (stop - step) / step + 1 :=
          Int.ceil_lt_add_one _
        linarith
      have hmul : (k : ℚ) * step < stop - step := (lt_div_iff₀ hst).mp hq
      linarith

section ListHelpers

variable {α : Type*} [Inhabited α]

lemma getD_set_self (l : List α) (i : ℕ) (a : α) (h : i < l.length) :
    (l.set i a).getD i default = a := by
  induction l generalizing i with
  | nil => simp at h
  | cons b t ih =>
      cases i with
      | zero => simp [List.set, List.getD]
      | succ n => simpa [List.set, List.getD] using ih n (by simpa using h)

lemma getD_set_ne (l : List α) (i j : ℕ) (a : α) (h : j ≠ i) :
    (l.set i a).getD j default = l.getD j default := by
  induction l generalizing i j with
  | nil => simp [List.set]
  | cons b t ih =>
      cases i with
      | zero =>
          cases j with
          | zero => exact absurd rfl h
          | succ m => simp [List.set, List.getD]
      | succ n =>
          cases j with
          | zero => simp [List.set, List.getD]
          | succ m => simpa [List.set, List.getD] using ih n m (fun hc => h (by omega))

lemma set_getD_self (l : List α) (i : ℕ) :
    l.set i (l.getD i default) = l := by
  induction l generalizing i with
  | nil => simp [List.set]
  | cons b t ih =>
      cases i with
      | zero => simp [List.set, List.getD]
      | succ n =>
          have hg : (b :: t).getD (n + 1) default = t.getD n default := by
            simp [List.getD]
          have hs : (b :: t).set (n + 1) ((b :: t).getD (n + 1) default)
              = b :: t.set n (t.getD n default) := by rw [hg]; rfl
          rw [hs, ih n]

end ListHelpers

/-- `Simulator.compute_min_cpa_over_others` (simulator.py, lines 256-276):
temporarily writes `test_heading` into the probed ship, takes the minimum
CPA distance over all other ships (`float('inf')` is `⊤`), and writes the
old heading back.  The probed ship is identified by its index `i`; the
source's `if s is not give_ship` identity test becomes `j ≠ i`. -/
def compute_min_cpa_over_others (T : Trig) (sim : Simulator) (i : ℕ) (test_heading : ℚ) :
    Simulator × WithTop ℚ :=
  let give0 := sim.ships.getD i default
  let old_heading := give0.heading
  let ships1 := sim.ships.set i { give0 with heading := test_heading }
  let give := ships1.getD i default
  let min_cpa := (List.range ships1.length).foldl
    (fun acc j =>
      if j = i then acc
      else
        let d := (compute_cpa_and_tcpa T give (ships1.getD j default)).1
        if (d : WithTop ℚ) < acc then (d : WithTop ℚ) else acc)
    ⊤
  let ships2 := ships1.set i { give with heading := old_heading }
  ({ sim with ships := ships2 }, min_cpa)

/-- Pure statement of the probe: the minimum CPA distance the ship at index
`i` would have against every other ship if its heading were `h`, computed
without touching any state. -/
def minCpaAt (T : Trig) (ships : List Ship) (i : ℕ) (h : ℚ) : WithTop ℚ :=
  ((((List.range ships.length).filter (fun j => j ≠ i))).map
    (fun j => ((compute_cpa_and_tcpa T { ships.getD i default with heading := h }
        (ships.getD j default)).1 : WithTop ℚ))).foldl min ⊤

lemma ite_lt_eq_min (d acc : WithTop ℚ) :
    (if d < acc then d else acc) = min acc d := by
  rcases le_or_lt acc d with h | h
  · rw [if_neg (not_lt.mpr h), min_eq_left h]
  · rw [if_pos h, min_eq_right h.le]

lemma foldl_if_min (i : ℕ) (f : ℕ → WithTop ℚ) :
    ∀ (l : List ℕ) (init : WithTop ℚ),
      l.foldl (fun acc j => if j = i then acc else if f j < acc then f j else acc) init
        = ((l.filter (fun j => j ≠ i)).map f).foldl min init := by
  intro l
  induction l with
  | nil => intro init; simp
  | cons j t ih =>
      intro init
      by_cases hj : j = i
      · have hd : decide (j ≠ i) = false := by simp [hj]
        simp only [List.foldl_cons, if_pos hj, List.filter_cons, hd, Bool.false_eq_true,
          if_false]
        exact ih init
      · have hd : decide (j ≠ i) = true := by simp [hj]
        simp only [List.foldl_cons, if_neg hj, List.filter_cons, hd, if_true, List.map_cons]
        rw [ite_lt_eq_min (f j) init]
        exact ih (min init (f j))

/-- The scan value of `compute_min_cpa_over_others` equals the pure
minimum `minCpaAt` at the test heading. -/
lemma compute_min_val (T : Trig) (sim : Simulator) (i : ℕ) (th : ℚ)
    (h : i < sim.ships.length) :
    (compute_min_cpa_over_others T sim i th).2 = minCpaAt T sim.ships i th := by
  unfold compute_min_cpa_over_others minCpaAt
  simp only [List.length_set]
  rw [foldl_if_min i (fun j =>
    ((compute_cpa_and_tcpa T
        ((sim.ships.set i { sim.ships.getD i default with heading := th }).getD i default)
        ((sim.ships.set i { sim.ships.getD i default with heading := th }).getD j default)).1
      : WithTop ℚ))]
  congr 1
  apply List.map_congr_left
  intro j hj
  have hji : j ≠ i := by
    have := List.mem_filter.mp hj
    simpa using this.2
  rw [getD_set_self _ _ _ h, getD_set_ne _ _ _ _ hji]

/-- The state component of `compute_min_cpa_over_others` is the input
state: the heading write is fully reverted. -/
lemma compute_min_frame (T : Trig) (sim : Simulator) (i : ℕ) (th : ℚ)
    (h : i < sim.ships.length) :
    (compute_min_cpa_over_others T sim i th).1 = sim := by
  unfold compute_min_cpa_over_others
  simp only
  rw [getD_set_self _ _ _ h]
  have : ({ { sim.ships.getD i default with heading := th } with
      heading := (sim.ships.getD i default).heading } : Ship) = sim.ships.getD i default := rfl
  rw [this, List.set_set, set_getD_self]

/-- **C8.** `compute_min_cpa_over_others` leaves the fleet state exactly as
it was (the probed vessel's heading is restored and no other field of any
vessel changes), and the value it returns is the minimum CPA distance the
probed vessel would have against every other vessel at the test heading. -/
theorem compute_min_cpa_over_others_pure (T : Trig) (sim : Simulator) (i : ℕ) (th : ℚ)
    (h : i < sim.ships.length) :
    (compute_min_cpa_over_others T sim i th).1 = sim ∧
    (compute_min_cpa_over_others T sim i th).2 = minCpaAt T sim.ships i th :=
  ⟨compute_min_frame T sim i th h, compute_min_val T sim i th h⟩

/-- Body of the candidate-offset loop of `apply_multi_ship_starboard`
(simulator.py, lines 239-244): probe `base_heading − offset` and keep the
offset if it strictly improves the running best minimum CPA.  The state is
`(simulator, best_cpa, best_offset)`; the simulator component threads the
in-place mutation of `compute_min_cpa_over_others`. -/
def scan_step (T : Trig) (i : ℕ) (base_heading : ℚ)
    (st : Simulator × WithTop ℚ × ℚ) (offset : ℚ) : Simulator × WithTop ℚ × ℚ :=
  let p := compute_min_cpa_over_others T st.1 i (base_heading - offset)
  if st.2.1 < p.2 then (p.1, p.2, offset) else (p.1, st.2.1, st.2.2)

/-- The per-call turn allowance (simulator.py, lines 225-228): the full
configured range for a give-way call, capped at 10° for a stand-on call. -/
def max_turn_range (sim : Simulator) (stand_on : Bool) : ℚ :=
  if stand_on then min sim.heading_search_range 10 else sim.heading_search_range

/-- `remaining_turn` (simulator.py, line 229): allowance minus the degrees
already used this tick by the ship at index `i`. -/
def remaining_turn (sim : Simulator) (i : ℕ) (stand_on : Bool) : ℚ :=
  max_turn_range sim stand_on - (sim.ships.getD i default).heading_adjusted

/-- The candidate-offset list (simulator.py, line 238):
`np.arange(step, remaining_turn + 0.0001, step)`. -/
def search_increments (sim : Simulator) (i : ℕ) (stand_on : Bool) : List ℚ :=
  arange sim.heading_search_step (remaining_turn sim i stand_on + 1/10000)
    sim.heading_search_step

/-- `Simulator.apply_multi_ship_starboard` (simulator.py, lines 212-254):
bounded starboard search for the ship at index `i`.  Returns the success
flag and the updated simulator. -/
def apply_multi_ship_starboard (T : Trig) (sim : Simulator) (i : ℕ) (stand_on : Bool) :
    Bool × Simulator :=
  let ship := sim.ships.getD i default
  let base_heading := ship.heading
  if remaining_turn sim i stand_on ≤ 0 then (false, sim)
  else
    let p1 := compute_min_cpa_over_others T sim i base_heading
    let res := (search_increments sim i stand_on).foldl
      (scan_step T i base_heading) (p1.1, p1.2, (0 : ℚ))
    let best_offset := res.2.2
    if 0 < best_offset then
      let sh := res.1.ships.getD i default
      let sh2 := { sh with heading := base_heading - best_offset,
                           heading_adjusted := sh.heading_adjusted + best_offset }
      (true, { res.1 with ships := res.1.ships.set i sh2 })
    else (false, res.1)

/-- Invariant relating the start state `s0` and the result `r` of the
candidate-offset scan over the offset list `l`. -/
def ScanInv (T : Trig) (sim : Simulator) (i : ℕ) (base : ℚ)
    (s0 r : Simulator × WithTop ℚ × ℚ) (l : List ℚ) : Prop :=
  r.1 = sim ∧
  r.2.1 = minCpaAt T sim.ships i (base - r.2.2) ∧
  s0.2.1 ≤ r.2.1 ∧
  (r.2.2 = s0.2.2 ∨ r.2.2 ∈ l) ∧
  (∀ o ∈ l, minCpaAt T sim.ships i (base - o) ≤ r.2.1) ∧
  (r.2.2 ≠ s0.2.2 → s0.2.1 < r.2.1) ∧
  (∀ o ∈ l, o < r.2.2 → minCpaAt T sim.ships i (base - o) < r.2.1)

lemma scan_foldl_spec (T : Trig) (sim : Simulator) (i : ℕ) (base : ℚ)
    (h : i < sim.ships.length) :
    ∀ (l : List ℚ) (s0 : Simulator × WithTop ℚ × ℚ),
      s0.1 = sim →
      s0.2.1 = minCpaAt T sim.ships i (base - s0.2.2) →
      (∀ o ∈ l, s0.2.2 < o) →
      l.Pairwise (· < ·) →
      ScanInv T sim i base s0 (l.foldl (scan_step T i base) s0) l := by
  intro l
  induction l with
  | nil =>
      intro s0 h1 h2 _ _
      exact ⟨h1, h2, le_refl _, Or.inl rfl, by simp, fun hne => absurd rfl hne, by simp⟩
  | cons o t ih =>
      intro s0 h1 h2 hgt hpw
      have hgt_t : ∀ o' ∈ t, s0.2.2 < o' := fun o' ho' => hgt o' (List.mem_cons_of_mem _ ho')
      have hgt_o : s0.2.2 < o := hgt o (List.mem_cons_self _ _)
      have hpw_t : t.Pairwise (· < ·) := hpw.of_cons
      have hlt_t : ∀ o' ∈ t, o < o' := fun o' ho' => (List.pairwise_cons.mp hpw).1 o' ho'
      have hstep : scan_step T i base s0 o =
          if s0.2.1 < minCpaAt T sim.ships i (base - o)
          then (sim, minCpaAt T sim.ships i (base - o), o)
          else (sim, s0.2.1, s0.2.2) := by
        simp only [scan_step]
        rw [h1, compute_min_frame T sim i _ h, compute_min_val T sim i _ h]
      rw [List.foldl_cons]
      by_cases himp : s0.2.1 < minCpaAt T sim.ships i (base - o)
      · rw [hstep, if_pos himp]
        have ihres := ih (sim, minCpaAt T sim.ships i (base - o), o) rfl rfl
          (fun o' ho' => hlt_t o' ho') hpw_t
        obtain ⟨r1, r2, r3, r4, r5, r6, r7⟩ := ihres
        refine ⟨r1, r2, le_of_lt (lt_of_lt_of_le himp r3), ?_, ?_, ?_, ?_⟩
        · rcases r4 with hc | hc
          · exact Or.inr (hc ▸ List.mem_cons_self _ _)
          · exact Or.inr (List.mem_cons_of_mem _ hc)
        · intro o' ho'
          rcases List.mem_cons.mp ho' with rfl | ho'
          · exact r3
          · exact r5 o' ho'
        · intro _
          exact lt_of_lt_of_le himp r3
        · intro o' ho' hlt
          rcases List.mem_cons.mp ho' with rfl | ho'
          · exact r6 hlt.ne'
          · exact r7 o' ho' hlt
      · rw [hstep, if_neg himp]
        have ihres := ih (sim, s0.2.1, s0.2.2) rfl h2 hgt_t hpw_t
        obtain ⟨r1, r2, r3, r4, r5, r6, r7⟩ := ihres
        refine ⟨r1, r2, r3, ?_, ?_, r6, ?_⟩
        · rcases r4 with hc | hc
          · exact Or.inl hc
          · exact Or.inr (List.mem_cons_of_mem _ hc)
        · intro o' ho'
          rcases List.mem_cons.mp ho' with rfl | ho'
          · exact le_trans (not_lt.mp himp) r3
          · exact r5 o' ho'
        · intro o' ho' hlt
          rcases List.mem_cons.mp ho' with rfl | ho'
          · rcases r4 with hc | hc
            · exfalso
              rw [hc] at hlt
              exact absurd hgt_o (not_lt.mpr hlt.le)
            · exact lt_of_le_of_lt (not_lt.mp himp) (r6 (hgt_t _ hc).ne')
          · exact r7 o' ho' hlt

/-- For a positive stop value (the case of the starboard search, where
`remaining_turn + 0.0001 > 0`), the candidate-offset list is strictly
increasing. -/
lemma arange_sorted (stop step : ℚ) (hstop : 0 < stop) :
    (arange step stop step).Pairwise (· < ·) := by
  rcases lt_trichotomy step 0 with hst | hst | hst
  · have hr : (stop - step) / step < 0 := div_neg_of_pos_of_neg (by linarith) hst
    have hc : ⌈(stop - step) / step⌉ ≤ 0 := by
      have := Int.ceil_le.mpr (le_of_lt hr : (stop - step) / step ≤ ((0 : ℤ) : ℚ))
      simpa using this
    have hn : ⌈(stop - step) / step⌉.toNat = 0 := by omega
    simp [arange, hn]
  · rw [hst]
    simp [arange]
  · unfold arange
    refine List.Pairwise.map _ (fun a b hab => ?_) (List.pairwise_lt_range _)
    have h1 : (a : ℚ) < (b : ℚ) := by exact_mod_cast hab
    have h2 := mul_lt_mul_of_pos_right h1 hst
    linarith

lemma apply_scan_inv (T : Trig) (sim : Simulator) (i : ℕ) (so : Bool)
    (h : i < sim.ships.length) (hrem : ¬ remaining_turn sim i so ≤ 0) :
    ScanInv T sim i ((sim.ships.getD i default).heading)
      ((compute_min_cpa_over_others T sim i ((sim.ships.getD i default).heading)).1,
       (compute_min_cpa_over_others T sim i ((sim.ships.getD i default).heading)).2, 0)
      ((search_increments sim i so).foldl
        (scan_step T i ((sim.ships.getD i default).heading))
        ((compute_min_cpa_over_others T sim i ((sim.ships.getD i default).heading)).1,
         (compute_min_cpa_over_others T sim i ((sim.ships.getD i default).heading)).2, 0))
      (search_increments sim i so) := by
  have hstop : 0 < remaining_turn sim i so + 1/10000 := by
    have := not_le.mp hrem
    linarith
  apply scan_foldl_spec T sim i _ h
  · exact compute_min_frame T sim i _ h
  · show (compute_min_cpa_over_others T sim i ((sim.ships.getD i default).heading)).2
      = minCpaAt T sim.ships i ((sim.ships.getD i default).heading - 0)
    rw [compute_min_val T sim i _ h, sub_zero]
  · intro o ho
    exact (arange_mem_bounds _ _ hstop o ho).1
  · exact arange_sorted _ _ hstop

/-- The committed state of a successful starboard search: only ship `i`
changes, its heading turned starboard by `b` and its per-tick budget
increased by `b` (simulator.py, lines 245-248). -/
def commit_result (sim : Simulator) (i : ℕ) (b : ℚ) : Simulator :=
  let sh := sim.ships.getD i default
  let sh2 := { sh with heading := sh.heading - b, heading_adjusted := sh.heading_adjusted + b }
  { sim with ships := sim.ships.set i sh2 }

/-- Full case analysis of `apply_multi_ship_starboard`: either it fails and
returns the state unchanged, or it commits a strictly positive offset `b`
drawn from the candidate list, updating only ship `i`'s heading and
`heading_adjusted`, such that `b` strictly improves the minimum CPA over the
current heading, maximizes it over all candidates, and is the earliest
maximizer. -/
lemma apply_cases (T : Trig) (sim : Simulator) (i : ℕ) (so : Bool)
    (h : i < sim.ships.length) :
    (apply_multi_ship_starboard T sim i so = (false, sim)) ∨
    (∃ b : ℚ, 0 < b ∧ ¬ remaining_turn sim i so ≤ 0 ∧ b ∈ search_increments sim i so ∧
      apply_multi_ship_starboard T sim i so = (true, commit_result sim i b) ∧
      minCpaAt T sim.ships i ((sim.ships.getD i default).heading)
        < minCpaAt T sim.ships i ((sim.ships.getD i default).heading - b) ∧
      (∀ o ∈ search_increments sim i so,
        minCpaAt T sim.ships i ((sim.ships.getD i default).heading - o)
          ≤ minCpaAt T sim.ships i ((sim.ships.getD i default).heading - b)) ∧
      (∀ o ∈ search_increments sim i so, o < b →
        minCpaAt T sim.ships i ((sim.ships.getD i default).heading - o)
          < minCpaAt T sim.ships i ((sim.ships.getD i default).heading - b))) := by
  by_cases hrem : remaining_turn sim i so ≤ 0
  · left
    simp only [apply_multi_ship_starboard, if_pos hrem]
  · have inv := apply_scan_inv T sim i so h hrem
    simp only [apply_multi_ship_starboard]
    rw [if_neg hrem]
    set r := (search_increments sim i so).foldl
        (scan_step T i (sim.ships.getD i default).heading)
        ((compute_min_cpa_over_others T sim i (sim.ships.getD i default).heading).1,
         (compute_min_cpa_over_others T sim i (sim.ships.getD i default).heading).2, 0)
      with hrdef
    obtain ⟨r1, r2, r3, r4, r5, r6, r7⟩ := inv
    by_cases hb : 0 < r.2.2
    · right
      have hmem : r.2.2 ∈ search_increments sim i so := by
        rcases r4 with hc | hc
        · exfalso
          rw [hc] at hb
          exact lt_irrefl _ hb
        · exact hc
      have hval : (compute_min_cpa_over_others T sim i
          ((sim.ships.getD i default).heading)).2
          = minCpaAt T sim.ships i ((sim.ships.getD i default).heading) :=
        compute_min_val T sim i _ h
      refine ⟨r.2.2, hb, hrem, hmem, ?_, ?_, ?_, ?_⟩
      · rw [if_pos hb, r1]
        rfl
      · have := r6 hb.ne'
        rw [hval] at this
        rw [r2] at this
        exact this
      · intro o ho
        have := r5 o ho
        rw [r2] at this
        exact this
      · intro o ho hlt
        have := r7 o ho hlt
        rw [r2] at this
        exact this
    · left
      rw [if_neg hb, r1]

/-- `compute_cpa_and_tcpa` reads only position, heading and speed of its
first argument. -/
lemma cpa_congr_left (T : Trig) {s1 s1' : Ship} (s2 : Ship)
    (hx : s1.x = s1'.x) (hy : s1.y = s1'.y)
    (hh : s1.heading = s1'.heading) (hs : s1.speed = s1'.speed) :
    compute_cpa_and_tcpa T s1 s2 = compute_cpa_and_tcpa T s1' s2 := by
  unfold compute_cpa_and_tcpa Ship.get_position_vector Ship.get_velocity_vector
  rw [hx, hy, hh, hs]

/-- `minCpaAt` at a probe heading is unchanged by the commit of the
starboard search: the committed update touches only ship `i`'s heading
(overridden by the probe) and its turn budget (not read by the CPA). -/
lemma minCpaAt_commit (T : Trig) (sim : Simulator) (i : ℕ) (b : ℚ) (hd : ℚ)
    (h : i < sim.ships.length) :
    minCpaAt T (commit_result sim i b).ships i hd = minCpaAt T sim.ships i hd := by
  unfold minCpaAt commit_result
  simp only [List.length_set]
  congr 1
  apply List.map_congr_left
  intro j hj
  have hji : j ≠ i := by
    have := List.mem_filter.mp hj
    simpa using this.2
  rw [getD_set_ne _ _ _ _ hji, getD_set_self _ _ _ h]
  exact congrArg (fun q => ((q.1 : ℚ) : WithTop ℚ))
    (cpa_congr_left T (sim.ships.getD j default) rfl rfl rfl rfl)

/-- **C2.** Whenever `apply_multi_ship_starboard` returns `True`, the
minimum closest-approach distance of the adjusted vessel against all other
vessels, evaluated at its new heading, is strictly greater than the same
minimum evaluated at its heading before the call; whenever it returns
`False`, the entire simulator state (in particular the vessel's heading and
turn budget) is unchanged. -/
theorem apply_starboard_improves_min_cpa (T : Trig) (sim : Simulator) (i : ℕ) (so : Bool)
    (h : i < sim.ships.length) :
    ((apply_multi_ship_starboard T sim i so).1 = true →
      minCpaAt T sim.ships i ((sim.ships.getD i default).heading)
        < minCpaAt T (apply_multi_ship_starboard T sim i so).2.ships i
            (((apply_multi_ship_starboard T sim i so).2.ships.getD i default).heading)) ∧
    ((apply_multi_ship_starboard T sim i so).1 = false →
      (apply_multi_ship_starboard T sim i so).2 = sim) := by
  rcases apply_cases T sim i so h with hc | ⟨b, hb, hrem, hmem, heq, himp, hmax, hfirst⟩
  · refine ⟨fun ht => ?_, fun _ => by rw [hc]⟩
    rw [hc] at ht
    exact absurd ht (by simp)
  · refine ⟨fun _ => ?_, fun hf => ?_⟩
    · rw [heq]
      have hh : (((true, commit_result sim i b) :
            Bool × Simulator).2.ships.getD i default).heading
          = (sim.ships.getD i default).heading - b := by
        show ((commit_result sim i b).ships.getD i default).heading = _
        unfold commit_result
        simp only
        rw [getD_set_self _ _ _ h]
      rw [hh]
      show minCpaAt T sim.ships i ((sim.ships.getD i default).heading)
        < minCpaAt T (commit_result sim i b).ships i ((sim.ships.getD i default).heading - b)
      rw [minCpaAt_commit T sim i b _ h]
      exact himp
    · rw [heq] at hf
      exact absurd hf (by simp)

lemma getD_mem {α : Type*} [Inhabited α] (l : List α) (i : ℕ) (h : i < l.length) :
    l.getD i default ∈ l := by
  induction l generalizing i with
  | nil => simp at h
  | cons b t ih =>
      cases i with
      | zero => simp [List.getD]
      | succ n =>
          have hg : (b :: t).getD (n + 1) default = t.getD n default := by simp [List.getD]
          rw [hg]
          exact List.mem_cons_of_mem _ (ih n (by simpa using h))

/-- Per-ship turn-budget bound maintained within a tick: nonnegative and
strictly below the configured range plus the `0.0001` arange slack. -/
def BudgetInv (sim : Simulator) : Prop :=
  ∀ s ∈ sim.ships, 0 ≤ s.heading_adjusted ∧
    s.heading_adjusted < sim.heading_search_range + 1/10000

lemma max_turn_range_le (sim : Simulator) (so : Bool) :
    max_turn_range sim so ≤ sim.heading_search_range := by
  unfold max_turn_range
  cases so with
  | false => simp
  | true => simp [min_le_left]

lemma apply_budget_step (T : Trig) (sim : Simulator) (i : ℕ) (so : Bool)
    (h : i < sim.ships.length) (hinv : BudgetInv sim) :
    BudgetInv (apply_multi_ship_starboard T sim i so).2 ∧
    (apply_multi_ship_starboard T sim i so).2.heading_search_range
      = sim.heading_search_range ∧
    (apply_multi_ship_starboard T sim i so).2.ships.length = sim.ships.length := by
  rcases apply_cases T sim i so h with hc | ⟨b, hb, hrem, hmem, heq, _, _, _⟩
  · rw [hc]
    exact ⟨hinv, rfl, rfl⟩
  · rw [heq]
    have hstop : 0 < remaining_turn sim i so + 1/10000 := by
      have := not_le.mp hrem
      linarith
    have hbb := arange_mem_bounds _ _ hstop b hmem
    have hsh := hinv _ (getD_mem sim.ships i h)
    have hmr := max_turn_range_le sim so
    refine ⟨?_, rfl, by simp [commit_result, List.length_set]⟩
    intro s hs
    unfold commit_result at hs
    simp only at hs
    rcases List.mem_or_eq_of_mem_set hs with hmem' | rfl
    · exact hinv s hmem'
    · constructor
      · simp only
        linarith [hsh.1, hbb.1]
      · simp only
        have hrem' : b < remaining_turn sim i so + 1/10000 := hbb.2
        unfold remaining_turn at hrem'
        show (sim.ships.getD i default).heading_adjusted + b
          < sim.heading_search_range + 1/10000
        linarith

/-- A sequence of starboard-search calls within one tick, as the resolution
loop performs them: each call targets some ship index with a stand-on flag
and threads the simulator state. -/
def applyCalls (T : Trig) (sim : Simulator) (calls : List (ℕ × Bool)) : Simulator :=
  calls.foldl (fun s c => (apply_multi_ship_starboard T s c.1 c.2).2) sim

lemma applyCalls_budget (T : Trig) :
    ∀ (calls : List (ℕ × Bool)) (sim : Simulator),
      BudgetInv sim →
      (∀ c ∈ calls, c.1 < sim.ships.length) →
      BudgetInv (applyCalls T sim calls) ∧
      (applyCalls T sim calls).heading_search_range = sim.heading_search_range := by
  intro calls
  induction calls with
  | nil => intro sim hinv _; exact ⟨hinv, rfl⟩
  | cons c t ih =>
      intro sim hinv hidx
      have hstep := apply_budget_step T sim c.1 c.2
        (hidx c (List.mem_cons_self _ _)) hinv
      have hrec := ih (apply_multi_ship_starboard T sim c.1 c.2).2
        hstep.1
        (fun c' hc' => by
          rw [hstep.2.2]
          exact hidx c' (List.mem_cons_of_mem _ hc'))
      unfold applyCalls at hrec ⊢
      rw [List.foldl_cons]
      refine ⟨hrec.1, ?_⟩
      rw [hrec.2, hstep.2.1]

/-- **C3 (amended).** Starting from a tick boundary (all budgets reset to
0), across any sequence of give-way and stand-on starboard-search calls
within the tick, every vessel's accumulated starboard offset stays strictly
below `heading_search_range + 0.0001` (the `np.arange` end slack).  The
original bound `≤ heading_search_range` does not hold — see the
counterexample. -/
theorem tick_budget_bounded (T : Trig) (sim : Simulator) (calls : List (ℕ × Bool))
    (hz : ∀ s ∈ sim.ships, s.heading_adjusted = 0)
    (hr : 0 ≤ sim.heading_search_range)
    (hidx : ∀ c ∈ calls, c.1 < sim.ships.length) :
    ∀ s ∈ (applyCalls T sim calls).ships,
      0 ≤ s.heading_adjusted ∧
      s.heading_adjusted < sim.heading_search_range + 1/10000 := by
  have hinv : BudgetInv sim := by
    intro s hs
    rw [hz s hs]
    constructor
    · exact le_refl 0
    · linarith
  have hres := applyCalls_budget T calls sim hinv hidx
  intro s hs
  have hbound := hres.1 s hs
  rw [hres.2] at hbound
  exact hbound

/-- **C7 (amended).** When the starboard search commits, the committed
offset is drawn from the candidate list and maximizes the minimum
closest-approach distance over *all* candidates in the remaining budget —
the scan does not stop early upon reaching the hard safety radius; among
equal maximizers the earliest offset wins.  (The originally claimed
early-stop behavior is refuted by the counterexample.) -/
theorem scan_commits_argmax (T : Trig) (sim : Simulator) (i : ℕ) (so : Bool)
    (h : i < sim.ships.length)
    (hT : (apply_multi_ship_starboard T sim i so).1 = true) :
    ∃ b : ℚ,
      apply_multi_ship_starboard T sim i so = (true, commit_result sim i b) ∧
      b ∈ search_increments sim i so ∧
      (∀ o ∈ search_increments sim i so,
        minCpaAt T sim.ships i ((sim.ships.getD i default).heading - o)
          ≤ minCpaAt T sim.ships i ((sim.ships.getD i default).heading - b)) ∧
      (∀ o ∈ search_increments sim i so, o < b →
        minCpaAt T sim.ships i ((sim.ships.getD i default).heading - o)
          < minCpaAt T sim.ships i ((sim.ships.getD i default).heading - b)) := by
  rcases apply_cases T sim i so h with hc | ⟨b, hb, hrem, hmem, heq, himp, hmax, hfirst⟩
  · rw [hc] at hT
    exact absurd hT (by simp)
  · exact ⟨b, heq, hmem, hmax, hfirst⟩

/-! ### Concrete instantiation used by witnesses and counterexamples

The scenarios below only ever evaluate the trigonometric oracle at
axis-aligned angles (multiples of 90°, where cosine/sine/atan2 are exact
rationals) and the square root at perfect squares, so the embedded runs
coincide with the floating-point program's runs on the same inputs. -/

/-- Exact square root on the perfect squares arising in the concrete
scenarios; 0 on other inputs (never evaluated there). -/
def sqrtT (q : ℚ) : ℚ :=
  if q = 0 then 0 else if q = 1 then 1 else if q = 9 then 3 else if q = 16 then 4
  else if q = 25 then 5 else if q = 100 then 10 else if q = 1000000 then 1000 else 0

/-- Cosine (degrees) on the axis-aligned angles of the scenarios:
`cos 0° = 1`, `cos ±90° = 0`, `cos 180° = −1`; 0 elsewhere (never
evaluated there with a nonzero speed). -/
def cosT (θ : ℚ) : ℚ :=
  if θ = 0 then 1 else if θ = 90 then 0 else if θ = -90 then 0 else if θ = 180 then -1 else 0

/-- Sine (degrees) on the axis-aligned angles of the scenarios. -/
def sinT (θ : ℚ) : ℚ :=
  if θ = 0 then 0 else if θ = 90 then 1 else if θ = -90 then -1 else if θ = 180 then 0 else 0

/-- `degrees(atan2 dy dx)` on axis-aligned vectors (exact there):
0 east, 180 west, 90 north, −90 south; 0 elsewhere (never evaluated
there). -/
def atan2T (dy dx : ℚ) : ℚ :=
  if dy = 0 ∧ 0 < dx then 0
  else if dy = 0 ∧ dx < 0 then 180
  else if dx = 0 ∧ 0 < dy then 90
  else if dx = 0 ∧ dy < 0 then -90
  else 0

/-- Concrete transcendental oracle for the scenarios. -/
def axisTrig : Trig :=
  { cosd := cosT, sind := sinT, atan2d := atan2T, sqrtq := sqrtT }

/-- Ship sailing due north from the origin at 1 kn. -/
def shipNorth : Ship :=
  { x := 0, y := 0, heading := 90, speed := 1, dest_x := 0, dest_y := 100 }

/-- Stationary ship dead ahead of `shipNorth`, 10 NM to the north. -/
def shipAhead : Ship :=
  { x := 0, y := 10, heading := 0, speed := 0, dest_x := 0, dest_y := 10 }

/-- Budget-overshoot scenario: turn range 89.99995°, search step 90°; the
`+ 0.0001` slack of `np.arange` admits the 90° offset, which exceeds the
configured range. -/
def simBudget : Simulator :=
  { ships := [shipNorth, shipAhead], time_step := 30, safe_distance := 1,
    heading_search_range := 89.99995, heading_search_step := 90 }

/-- Stationary ship 5 NM from the origin, bearing north-east-ish (3, 4). -/
def shipSide : Ship :=
  { x := 3, y := 4, heading := 0, speed := 0, dest_x := 3, dest_y := 4 }

/-- No-early-stop scenario: offsets 90° and 180° are both in budget; 90°
already lifts the minimum CPA (4 NM) above the safety radius (3.5 NM), but
180° is better still (5 NM) and is the one committed. -/
def simScan : Simulator :=
  { ships := [shipNorth, shipSide], time_step := 30, safe_distance := 3.5,
    heading_search_range := 180, heading_search_step := 90 }


lemma evalBudget_rem : remaining_turn simBudget 0 false = 89.99995 := by
  norm_num [remaining_turn, max_turn_range, simBudget, shipNorth, shipAhead, List.getD]

lemma evalBudget_inc : search_increments simBudget 0 false = [90] := by
  have hceil : ⌈((89.99995 + 1/10000 : ℚ) - 90) / 90⌉ = 1 := by
    rw [Int.ceil_eq_iff] ; norm_num
  unfold search_increments arange
  rw [evalBudget_rem]
  have hstep : simBudget.heading_search_step = 90 := by norm_num [simBudget]
  rw [hstep]
  rw [hceil]
  norm_num [List.range_succ]

lemma evalBudget_cm_base :
    compute_min_cpa_over_others axisTrig simBudget 0 90 = (simBudget, ((0:ℚ) : WithTop ℚ)) := by
  norm_num [compute_min_cpa_over_others, simBudget, shipNorth, shipAhead, List.getD,
    List.set, List.range_succ, compute_cpa_and_tcpa, Ship.get_position_vector,
    Ship.get_velocity_vector, dot, vsub, vadd, smul, axisTrig, cosT, sinT, sqrtT]

lemma evalBudget_cm_0 :
    compute_min_cpa_over_others axisTrig simBudget 0 (90 - 90) = (simBudget, ((10:ℚ) : WithTop ℚ)) := by
  norm_num [compute_min_cpa_over_others, simBudget, shipNorth, shipAhead, List.getD,
    List.set, List.range_succ, compute_cpa_and_tcpa, Ship.get_position_vector,
    Ship.get_velocity_vector, dot, vsub, vadd, smul, axisTrig, cosT, sinT, sqrtT]

lemma evalBudget_apply :
    apply_multi_ship_starboard axisTrig simBudget 0 false = (true, commit_result simBudget 0 90) := by
  have hrem : ¬ remaining_turn simBudget 0 false ≤ 0 := by
    rw [evalBudget_rem]; norm_num
  have hbase : (simBudget.ships.getD 0 default).heading = 90 := by
    norm_num [simBudget, shipNorth, List.getD]
  simp only [apply_multi_ship_starboard]
  rw [if_neg hrem, evalBudget_inc, hbase, evalBudget_cm_base]
  simp only [List.foldl_cons, List.foldl_nil, scan_step, evalBudget_cm_0]
  norm_num [commit_result, simBudget, shipNorth, shipAhead, List.getD, List.set]


lemma evalScan_rem : remaining_turn simScan 0 false = 180 := by
  norm_num [remaining_turn, max_turn_range, simScan, shipNorth, shipSide, List.getD]

lemma evalScan_inc : search_increments simScan 0 false = [90, 180] := by
  have hceil : ⌈((180 + 1/10000 : ℚ) - 90) / 90⌉ = 2 := by
    rw [Int.ceil_eq_iff] ; norm_num
  unfold search_increments arange
  rw [evalScan_rem]
  have hstep : simScan.heading_search_step = 90 := by norm_num [simScan]
  rw [hstep, hceil]
  have h2 : (2 : ℤ).toNat = 2 := rfl
  rw [h2]
  norm_num [List.range_succ]

lemma evalScan_cm_base :
    compute_min_cpa_over_others axisTrig simScan 0 90 = (simScan, ((3:ℚ) : WithTop ℚ)) := by
  norm_num [compute_min_cpa_over_others, simScan, shipNorth, shipSide, List.getD,
    List.set, List.range_succ, compute_cpa_and_tcpa, Ship.get_position_vector,
    Ship.get_velocity_vector, dot, vsub, vadd, smul, axisTrig, cosT, sinT, sqrtT]

lemma evalScan_cm_0 :
    compute_min_cpa_over_others axisTrig simScan 0 0 = (simScan, ((4:ℚ) : WithTop ℚ)) := by
  norm_num [compute_min_cpa_over_others, simScan, shipNorth, shipSide, List.getD,
    List.set, List.range_succ, compute_cpa_and_tcpa, Ship.get_position_vector,
    Ship.get_velocity_vector, dot, vsub, vadd, smul, axisTrig, cosT, sinT, sqrtT]

lemma evalScan_cm_neg90 :
    compute_min_cpa_over_others axisTrig simScan 0 (-90) = (simScan, ((5:ℚ) : WithTop ℚ)) := by
  norm_num [compute_min_cpa_over_others, simScan, shipNorth, shipSide, List.getD,
    List.set, List.range_succ, compute_cpa_and_tcpa, Ship.get_position_vector,
    Ship.get_velocity_vector, dot, vsub, vadd, smul, axisTrig, cosT, sinT, sqrtT]

lemma evalScan_step1 :
    scan_step axisTrig 0 90 (simScan, ((3:ℚ) : WithTop ℚ), (0:ℚ)) 90
      = (simScan, ((4:ℚ) : WithTop ℚ), (90:ℚ)) := by
  have harg : (90 : ℚ) - 90 = 0 := by norm_num
  simp only [scan_step, harg]
  rw [evalScan_cm_0]
  rw [if_pos (show ((3:ℚ) : WithTop ℚ) < ((4:ℚ) : WithTop ℚ) from
    WithTop.coe_lt_coe.mpr (by norm_num))]

lemma evalScan_step2 :
    scan_step axisTrig 0 90 (simScan, ((4:ℚ) : WithTop ℚ), (90:ℚ)) 180
      = (simScan, ((5:ℚ) : WithTop ℚ), (180:ℚ)) := by
  have harg : (90 : ℚ) - 180 = -90 := by norm_num
  simp only [scan_step, harg]
  rw [evalScan_cm_neg90]
  rw [if_pos (show ((4:ℚ) : WithTop ℚ) < ((5:ℚ) : WithTop ℚ) from
    WithTop.coe_lt_coe.mpr (by norm_num))]

lemma evalScan_apply :
    apply_multi_ship_starboard axisTrig simScan 0 false = (true, commit_result simScan 0 180) := by
  have hrem : ¬ remaining_turn simScan 0 false ≤ 0 := by
    rw [evalScan_rem]; norm_num
  have hbase : (simScan.ships.getD 0 default).heading = 90 := by
    norm_num [simScan, shipNorth, List.getD]
  simp only [apply_multi_ship_starboard]
  rw [if_neg hrem, evalScan_inc, hbase, evalScan_cm_base]
  simp only [List.foldl_cons, List.foldl_nil]
  rw [evalScan_step1, evalScan_step2]
  rw [if_pos (show (0:ℚ) < (simScan, ((5:ℚ) : WithTop ℚ), (180:ℚ)).2.2 by norm_num)]
  norm_num [commit_result, simScan, shipNorth, shipSide, List.getD, List.set]

lemma evalScan_minCpaAt_0 :
    minCpaAt axisTrig simScan.ships 0 ((simScan.ships.getD 0 default).heading - 90)
      = ((4:ℚ) : WithTop ℚ) := by
  have hbase : (simScan.ships.getD 0 default).heading = 90 := by
    norm_num [simScan, shipNorth, List.getD]
  rw [hbase]
  norm_num [minCpaAt, simScan, shipNorth, shipSide, List.getD, List.range_succ,
    List.filter, compute_cpa_and_tcpa, Ship.get_position_vector,
    Ship.get_velocity_vector, dot, vsub, vadd, smul, axisTrig, cosT, sinT, sqrtT]


/-- Witness for C2 at a concrete input: on `simBudget` the search succeeds
and the minimum CPA rises from 0 to 10 NM. -/
theorem apply_starboard_improves_min_cpa_witness :
    0 < simBudget.ships.length ∧
    (apply_multi_ship_starboard axisTrig simBudget 0 false).1 = true ∧
    minCpaAt axisTrig simBudget.ships 0 ((simBudget.ships.getD 0 default).heading)
      < minCpaAt axisTrig (apply_multi_ship_starboard axisTrig simBudget 0 false).2.ships 0
          (((apply_multi_ship_starboard axisTrig simBudget 0 false).2.ships.getD 0
            default).heading) :=
  ⟨by norm_num [simBudget], by rw [evalBudget_apply],
    (apply_starboard_improves_min_cpa axisTrig simBudget 0 false
      (by norm_num [simBudget])).1 (by rw [evalBudget_apply])⟩

/-- Counterexample to C3 as stated: with turn range 89.99995° and step 90°,
a single in-tick search call commits a 90° offset, so the tick's committed
sum (90°) exceeds the configured `heading_search_range`, because
`np.arange(step, remaining + 0.0001, step)` admits offsets up to 0.0001
beyond the remaining budget. -/
theorem tick_budget_counterexample :
    (simBudget.ships.getD 0 default).heading_adjusted = 0 ∧
    ((applyCalls axisTrig simBudget [(0, false)]).ships.getD 0 default).heading_adjusted
      = 90 ∧
    simBudget.heading_search_range < 90 := by
  refine ⟨by norm_num [simBudget, shipNorth, List.getD], ?_, by norm_num [simBudget]⟩
  unfold applyCalls
  simp only [List.foldl_cons, List.foldl_nil]
  rw [evalBudget_apply]
  norm_num [commit_result, simBudget, shipNorth, shipAhead, List.getD, List.set]

/-- Witness for the amended C3 at a concrete input. -/
theorem tick_budget_bounded_witness :
    (∀ s ∈ simBudget.ships, s.heading_adjusted = 0) ∧
    0 ≤ simBudget.heading_search_range ∧
    (∀ c ∈ [((0 : ℕ), false)], c.1 < simBudget.ships.length) ∧
    ∀ s ∈ (applyCalls axisTrig simBudget [(0, false)]).ships,
      0 ≤ s.heading_adjusted ∧
      s.heading_adjusted < simBudget.heading_search_range + 1/10000 :=
  ⟨by norm_num [simBudget, shipNorth, shipAhead], by norm_num [simBudget],
    by norm_num [simBudget],
    tick_budget_bounded axisTrig simBudget [(0, false)]
      (by norm_num [simBudget, shipNorth, shipAhead]) (by norm_num [simBudget])
      (by norm_num [simBudget])⟩

/-- Counterexample to C7 as stated: on `simScan` the offset 90° is in
budget and already lifts the minimum CPA to 4 NM ≥ the 3.5 NM safety
radius, yet the scan does not stop there: it commits 180° (minimum CPA
5 NM), so the committed offset is *not* the first one achieving the safety
radius. -/
theorem scan_no_early_stop_counterexample :
    (90 : ℚ) ∈ search_increments simScan 0 false ∧
    (simScan.safe_distance : WithTop ℚ)
      ≤ minCpaAt axisTrig simScan.ships 0 ((simScan.ships.getD 0 default).heading - 90) ∧
    apply_multi_ship_starboard axisTrig simScan 0 false
      = (true, commit_result simScan 0 180) ∧
    ¬ apply_multi_ship_starboard axisTrig simScan 0 false
      = (true, commit_result simScan 0 90) := by
  refine ⟨?_, ?_, evalScan_apply, ?_⟩
  · rw [evalScan_inc]
    norm_num
  · rw [evalScan_minCpaAt_0]
    have hsd : simScan.safe_distance = 3.5 := by norm_num [simScan]
    rw [hsd]
    exact WithTop.coe_le_coe.mpr (by norm_num)
  · rw [evalScan_apply]
    intro hcontra
    have hadj := congrArg (fun p => ((p.2.ships.getD 0 default).heading_adjusted)) hcontra
    norm_num [commit_result, simScan, shipNorth, shipSide, List.getD, List.set] at hadj

/-- Witness for the amended C7 at a concrete input. -/
theorem scan_commits_argmax_witness :
    0 < simScan.ships.length ∧
    (apply_multi_ship_starboard axisTrig simScan 0 false).1 = true ∧
    (∃ b : ℚ,
      apply_multi_ship_starboard axisTrig simScan 0 false
        = (true, commit_result simScan 0 b) ∧
      b ∈ search_increments simScan 0 false ∧
      (∀ o ∈ search_increments simScan 0 false,
        minCpaAt axisTrig simScan.ships 0 ((simScan.ships.getD 0 default).heading - o)
          ≤ minCpaAt axisTrig simScan.ships 0 ((simScan.ships.getD 0 default).heading - b)) ∧
      (∀ o ∈ search_increments simScan 0 false, o < b →
        minCpaAt axisTrig simScan.ships 0 ((simScan.ships.getD 0 default).heading - o)
          < minCpaAt axisTrig simScan.ships 0 ((simScan.ships.getD 0 default).heading - b))) :=
  ⟨by norm_num [simScan], by rw [evalScan_apply],
    scan_commits_argmax axisTrig simScan 0 false (by norm_num [simScan])
      (by rw [evalScan_apply])⟩

/-- Witness for C8 at a concrete input: probing ship 0 of `simScan` at
heading 0 returns the state unchanged together with the pure minimum. -/
theorem compute_min_cpa_over_others_pure_witness :
    0 < simScan.ships.length ∧
    ((compute_min_cpa_over_others axisTrig simScan 0 0).1 = simScan ∧
     (compute_min_cpa_over_others axisTrig simScan 0 0).2
        = minCpaAt axisTrig simScan.ships 0 0) :=
  ⟨by norm_num [simScan], compute_min_cpa_over_others_pure axisTrig simScan 0 0
    (by norm_num [simScan])⟩

/-- `Simulator.detect_collisions` (simulator.py, lines 195-210): all pairs
`i < j` whose CPA distance is below `3 * safe_distance`, sorted ascending by
`(t_cpa, dist_cpa)`. -/
def detect_collisions (T : Trig) (sim : Simulator) : List (ℚ × ℚ × ℕ × ℕ) :=
  let n := sim.ships.length
  let pairs := (List.range n).flatMap (fun i =>
    (List.range' (i + 1) (n - (i + 1))).filterMap (fun j =>
      let p := compute_cpa_and_tcpa T (sim.ships.getD i default) (sim.ships.getD j default)
      if p.1 < 3 * sim.safe_distance then some (p.1, p.2, i, j) else none))
  List.insertionSort
    (fun a b => a.2.1 < b.2.1 ∨ (a.2.1 = b.2.1 ∧ a.1 ≤ b.1)) pairs

/-- `Simulator.revert_heading_with_clamp` (simulator.py, lines 278-297):
turn the ship back toward its destination heading, clamped to
`± heading_search_range`; the inline `while` loops are the same
normalization as in `relative_bearing_degs`. -/
def revert_heading_with_clamp (T : Trig) (sim : Simulator) (ship : Ship) : Ship :=
  let curr_hd := ship.heading
  let dest_hd := ship.compute_heading_to_destination T
  let diff := normLo (normHi (dest_hd - curr_hd))
  let max_turn := sim.heading_search_range
  let diff2 := if max_turn < diff then max_turn
    else if diff < -max_turn then -max_turn else diff
  { ship with heading := curr_hd + diff2 }

/-- Start-of-tick phases of `Simulator.step` (simulator.py, lines 50-68):
(1) reset every ship's `heading_adjusted`; (2) detect collisions and update
the conflict-free streak; (3) if the streak exceeds 10, revert still-moving
ships' headings toward their destinations with clamping. -/
def tickStart (T : Trig) (sim : Simulator) : Simulator :=
  let sim1 := { sim with ships := sim.ships.map Ship.reset_heading_adjusted }
  let collisions := detect_collisions T sim1
  let ncc := if collisions.isEmpty then sim1.no_collision_count + 1 else 0
  let sim2 := { sim1 with no_collision_count := ncc }
  if 10 < sim2.no_collision_count then
    { sim2 with ships := sim2.ships.map (fun sh =>
        if sim2.destination_threshold < sh.distance_to_destination T then
          revert_heading_with_clamp T sim2 sh
        else sh) }
  else sim2

/-- Advance phase of `Simulator.step` (simulator.py, lines 181-191): each
arrived ship (distance below threshold) is left in place, recording its
arrival time if unset; every other ship advances by one tick; the clock
advances by `time_step`. -/
def movePhase (T : Trig) (sim : Simulator) : Simulator :=
  let dt_hours := sim.time_step / 3600
  let ships1 := sim.ships.map (fun sh =>
    if sh.distance_to_destination T < sim.destination_threshold then
      (if sh.arrival_time = none then { sh with arrival_time := some sim.current_time }
       else sh)
    else sh.update_position T dt_hours)
  { sim with ships := ships1, current_time := sim.current_time + sim.time_step }

/-- Body of the per-pair resolution (simulator.py, lines 83-174), for the
pair `(i, j)` after the stale-pair guard.  Returns the updated simulator,
the `improved` flag, and the ordered list of starboard-search attempts
made, each as (ship index, stand_on flag); a fallback attempt appears only
when it was actually made (i.e. when the first attempt failed). -/
def resolve_pair (T : Trig) (sim : Simulator) (i j : ℕ) :
    Simulator × Bool × List (ℕ × Bool) :=
  let shipA := sim.ships.getD i default
  let shipB := sim.ships.getD j default
  let encounter := classify_encounter T shipA shipB
  if encounter = "head-on" then
    let rA := apply_multi_ship_starboard T sim i false
    let rB := apply_multi_ship_starboard T rA.2 j false
    (rB.2, rA.1 || rB.1, [(i, false), (j, false)])
  else if encounter = "crossing" then
    if is_on_starboard_side T shipA shipB then
      let rA := apply_multi_ship_starboard T sim i false
      if rA.1 then (rA.2, true, [(i, false)])
      else
        let rB := apply_multi_ship_starboard T rA.2 j true
        (rB.2, rB.1, [(i, false), (j, true)])
    else
      let rB := apply_multi_ship_starboard T sim j false
      if rB.1 then (rB.2, true, [(j, false)])
      else
        let rA := apply_multi_ship_starboard T rB.2 i true
        (rA.2, rA.1, [(j, false), (i, true)])
  else
    let bearingAB := |relative_bearing_degs T shipA shipB|
    if 112.5 < bearingAB ∧ bearingAB < 250 then
      let rB := apply_multi_ship_starboard T sim j false
      if rB.1 then (rB.2, true, [(j, false)])
      else
        let rA := apply_multi_ship_starboard T rB.2 i true
        (rA.2, rA.1, [(j, false), (i, true)])
    else
      let rA := apply_multi_ship_starboard T sim i false
      if rA.1 then (rA.2, true, [(i, false)])
      else
        let rB := apply_multi_ship_starboard T rA.2 j true
        (rB.2, rB.1, [(i, false), (j, true)])

/-- **C10.** Every tuple produced by `detect_collisions` already satisfies
`dist_cpa < 3 * safe_distance`, and hence the stale-pair guard
(`dist_cpa >= 3 * safe_distance`, simulator.py lines 81 and 318) is false
for every element: since the cached distance is not recomputed between
detection and the guard, the guard never fires. -/
theorem detect_collisions_below_band (T : Trig) (sim : Simulator) :
    ∀ x ∈ detect_collisions T sim,
      x.1 < 3 * sim.safe_distance ∧ ¬ 3 * sim.safe_distance ≤ x.1 := by
  intro x hx
  unfold detect_collisions at hx
  have hx' := (List.perm_insertionSort _ _).mem_iff.mp hx
  simp only [List.mem_flatMap, List.mem_filterMap, List.mem_range] at hx'
  obtain ⟨i, _, j, _, hsome⟩ := hx'
  by_cases hc : (compute_cpa_and_tcpa T (sim.ships.getD i default)
      (sim.ships.getD j default)).1 < 3 * sim.safe_distance
  · simp only [hc, if_true] at hsome
    cases hsome
    exact ⟨hc, not_le.mpr hc⟩
  · simp only [hc, if_false] at hsome
    exact Option.noConfusion hsome

lemma getD_map {α β : Type*} [Inhabited α] [Inhabited β] (f : α → β) (l : List α) (k : ℕ)
    (h : k < l.length) :
    (l.map f).getD k default = f (l.getD k default) := by
  induction l generalizing k with
  | nil => simp at h
  | cons b t ih =>
      cases k with
      | zero => simp [List.getD]
      | succ n =>
          have h1 : ((b :: t).map f).getD (n + 1) default = (t.map f).getD n default := by
            simp [List.getD]
          have h2 : (b :: t).getD (n + 1) default = t.getD n default := by
            simp [List.getD]
          rw [h1, h2]
          exact ih n (by simpa using h)

/-- **C9.** In the advance phase of `step()`: a vessel below the arrival
threshold is not moved, its arrival time is recorded on the first tick it
is observed arrived and is never modified afterwards; every vessel at or
beyond the threshold is advanced by its velocity times the tick duration in
hours, with its arrival time untouched. -/
theorem movePhase_spec (T : Trig) (sim : Simulator) (k : ℕ) (hk : k < sim.ships.length) :
    ((sim.ships.getD k default).distance_to_destination T < sim.destination_threshold →
      ((movePhase T sim).ships.getD k default).x = (sim.ships.getD k default).x ∧
      ((movePhase T sim).ships.getD k default).y = (sim.ships.getD k default).y ∧
      ((sim.ships.getD k default).arrival_time = none →
        ((movePhase T sim).ships.getD k default).arrival_time = some sim.current_time) ∧
      (∀ t : ℚ, (sim.ships.getD k default).arrival_time = some t →
        ((movePhase T sim).ships.getD k default).arrival_time = some t)) ∧
    (¬ (sim.ships.getD k default).distance_to_destination T < sim.destination_threshold →
      ((movePhase T sim).ships.getD k default).x
        = (sim.ships.getD k default).x
          + (sim.ships.getD k default).speed * (sim.time_step / 3600)
            * T.cosd (sim.ships.getD k default).heading ∧
      ((movePhase T sim).ships.getD k default).y
        = (sim.ships.getD k default).y
          + (sim.ships.getD k default).speed * (sim.time_step / 3600)
            * T.sind (sim.ships.getD k default).heading ∧
      ((movePhase T sim).ships.getD k default).arrival_time
        = (sim.ships.getD k default).arrival_time) := by
  have hmap : (movePhase T sim).ships.getD k default =
      (fun sh =>
        if sh.distance_to_destination T < sim.destination_threshold then
          (if sh.arrival_time = none then { sh with arrival_time := some sim.current_time }
           else sh)
        else sh.update_position T (sim.time_step / 3600)) (sim.ships.getD k default) := by
    unfold movePhase
    exact getD_map _ _ _ hk
  rw [hmap]
  dsimp only
  constructor
  · intro hnear
    rw [if_pos hnear]
    by_cases harr : (sim.ships.getD k default).arrival_time = none
    · rw [if_pos harr]
      exact ⟨rfl, rfl, fun _ => rfl, fun t ht => by rw [harr] at ht; cases ht⟩
    · rw [if_neg harr]
      exact ⟨rfl, rfl, fun hc => absurd hc harr, fun t ht => ht⟩
  · intro hfar
    rw [if_neg hfar]
    exact ⟨rfl, rfl, rfl⟩

lemma reset_heading_eq (s : Ship) : (Ship.reset_heading_adjusted s).heading = s.heading := rfl

lemma reset_adjusted_eq (s : Ship) :
    (Ship.reset_heading_adjusted s).heading_adjusted = 0 := rfl

lemma reset_distance_eq (T : Trig) (s : Ship) :
    (Ship.reset_heading_adjusted s).distance_to_destination T
      = s.distance_to_destination T := rfl

lemma revert_adjusted_eq (T : Trig) (sim : Simulator) (s : Ship) :
    (revert_heading_with_clamp T sim s).heading_adjusted = s.heading_adjusted := rfl

/-- **C5 (amended).** At the start of every tick, *every* vessel — arrived
or not — has its turn budget reset to 0 (the source resets unconditionally,
the arrival exclusion claimed by the spec does not exist).  Headings are
*not* re-aimed at the destination: they are unchanged unless the
conflict-free streak exceeds 10 ticks, in which case each vessel strictly
beyond the arrival threshold gets the *clamped* revert toward its
destination heading and the rest keep their headings. -/
theorem tickStart_spec (T : Trig) (sim : Simulator) (k : ℕ) (hk : k < sim.ships.length) :
    ((tickStart T sim).ships.getD k default).heading_adjusted = 0 ∧
    (¬ 10 < (tickStart T sim).no_collision_count →
      ((tickStart T sim).ships.getD k default).heading
        = (sim.ships.getD k default).heading) ∧
    (10 < (tickStart T sim).no_collision_count →
      (¬ sim.destination_threshold
          < (sim.ships.getD k default).distance_to_destination T →
        ((tickStart T sim).ships.getD k default).heading
          = (sim.ships.getD k default).heading) ∧
      (sim.destination_threshold
          < (sim.ships.getD k default).distance_to_destination T →
        ((tickStart T sim).ships.getD k default).heading
          = (revert_heading_with_clamp T sim (sim.ships.getD k default)).heading)) := by
  unfold tickStart
  dsimp only
  have hk1 : k < (sim.ships.map Ship.reset_heading_adjusted).length := by simpa using hk
  split
  · split
    · next h10 =>
        rw [getD_map _ _ _ hk1, getD_map _ _ _ hk]
        rw [reset_distance_eq]
        refine ⟨?_, fun hc => absurd h10 hc, fun _ => ⟨?_, ?_⟩⟩
        · by_cases hd : sim.destination_threshold
              < (sim.ships.getD k default).distance_to_destination T
          · rw [if_pos hd]
            rfl
          · rw [if_neg hd]
            rfl
        · intro hd
          rw [if_neg hd]
          rfl
        · intro hd
          rw [if_pos hd]
          rfl
    · next h10 =>
        rw [getD_map _ _ _ hk]
        exact ⟨rfl, fun _ => rfl, fun hc => absurd hc h10⟩
  · split
    · next h10 => exact absurd h10 (by norm_num)
    · next h10 =>
        rw [getD_map _ _ _ hk]
        exact ⟨rfl, fun _ => rfl, fun hc => absurd hc h10⟩

/-- **C6 (amended).** In the resolution of an at-risk pair: in head-on
encounters both vessels (both designated give-way) are attempted with the
full budget; in crossing encounters with B on A's starboard, and in both
overtaking sub-cases, the vessel designated give-way by `assign_roles` is
attempted first with the full budget and the stand-on vessel is attempted —
with the reduced (≤10°) allowance — only if that first attempt fails.  In
the crossing case where B is *not* on A's starboard (which includes the
ambiguous case where neither is on the other's starboard), vessel B is
attempted first: when A is on B's starboard this is the give-way vessel,
but in the ambiguous case `assign_roles` designates A ("Give-Way", B
"Stand-On") and the search nevertheless tries B first — the claimed
give-way-first ordering fails there (see the counterexample). -/
theorem resolve_pair_order (T : Trig) (sim : Simulator) (i j : ℕ) :
    (classify_encounter T (sim.ships.getD i default) (sim.ships.getD j default)
        = "head-on" →
      (resolve_pair T sim i j).2.2 = [(i, false), (j, false)] ∧
      assign_roles T (sim.ships.getD i default) (sim.ships.getD j default) "head-on"
        = ("Give-Way", "Give-Way")) ∧
    (classify_encounter T (sim.ships.getD i default) (sim.ships.getD j default)
        = "crossing" →
      (is_on_starboard_side T (sim.ships.getD i default) (sim.ships.getD j default) →
        (resolve_pair T sim i j).2.2
          = (i, false) ::
            (if (apply_multi_ship_starboard T sim i false).1 then [] else [(j, true)]) ∧
        assign_roles T (sim.ships.getD i default) (sim.ships.getD j default) "crossing"
          = ("Give-Way", "Stand-On")) ∧
      (¬ is_on_starboard_side T (sim.ships.getD i default) (sim.ships.getD j default) →
        (resolve_pair T sim i j).2.2
          = (j, false) ::
            (if (apply_multi_ship_starboard T sim j false).1 then [] else [(i, true)]) ∧
        (is_on_starboard_side T (sim.ships.getD j default) (sim.ships.getD i default) →
          assign_roles T (sim.ships.getD i default) (sim.ships.getD j default) "crossing"
            = ("Stand-On", "Give-Way")) ∧
        (¬ is_on_starboard_side T (sim.ships.getD j default) (sim.ships.getD i default) →
          assign_roles T (sim.ships.getD i default) (sim.ships.getD j default) "crossing"
            = ("Give-Way", "Stand-On")))) ∧
    (classify_encounter T (sim.ships.getD i default) (sim.ships.getD j default)
        = "overtaking" →
      (112.5 < |relative_bearing_degs T (sim.ships.getD i default)
            (sim.ships.getD j default)| ∧
          |relative_bearing_degs T (sim.ships.getD i default)
            (sim.ships.getD j default)| < 250 →
        (resolve_pair T sim i j).2.2
          = (j, false) ::
            (if (apply_multi_ship_starboard T sim j false).1 then [] else [(i, true)]) ∧
        assign_roles T (sim.ships.getD i default) (sim.ships.getD j default) "overtaking"
          = ("Stand-On", "Give-Way")) ∧
      (¬ (112.5 < |relative_bearing_degs T (sim.ships.getD i default)
            (sim.ships.getD j default)| ∧
          |relative_bearing_degs T (sim.ships.getD i default)
            (sim.ships.getD j default)| < 250) →
        (resolve_pair T sim i j).2.2
          = (i, false) ::
            (if (apply_multi_ship_starboard T sim i false).1 then [] else [(j, true)]) ∧
        assign_roles T (sim.ships.getD i default) (sim.ships.getD j default) "overtaking"
          = ("Give-Way", "Stand-On"))) := by
  refine ⟨fun henc => ⟨?_, ?_⟩, fun henc => ⟨fun hsb => ⟨?_, ?_⟩,
    fun hsb => ⟨?_, fun hba => ?_, fun hba => ?_⟩⟩,
    fun henc => ⟨fun haft => ⟨?_, ?_⟩, fun haft => ⟨?_, ?_⟩⟩⟩
  · simp only [resolve_pair]
    rw [henc]
    rw [if_pos rfl]
  · simp [assign_roles]
  · simp only [resolve_pair]
    rw [henc]
    rw [if_neg (by decide), if_pos rfl, if_pos hsb]
    cases hA : (apply_multi_ship_starboard T sim i false).1 <;> simp [hA]
  · simp only [assign_roles]
    rw [if_pos trivial, if_pos hsb]
    simp
  · simp only [resolve_pair]
    rw [henc]
    rw [if_neg (by decide), if_pos rfl, if_neg hsb]
    cases hB : (apply_multi_ship_starboard T sim j false).1 <;> simp [hB]
  · simp only [assign_roles]
    rw [if_pos trivial, if_neg hsb, if_pos hba]
    simp
  · simp only [assign_roles]
    rw [if_pos trivial, if_neg hsb, if_neg hba]
    simp
  · simp only [resolve_pair]
    rw [henc]
    rw [if_neg (by decide), if_neg (by decide), if_pos haft]
    cases hB : (apply_multi_ship_starboard T sim j false).1 <;> simp [hB]
  · simp only [assign_roles]
    rw [if_pos haft]
    simp
  · simp only [resolve_pair]
    rw [henc]
    rw [if_neg (by decide), if_neg (by decide), if_neg haft]
    cases hA : (apply_multi_ship_starboard T sim i false).1 <;> simp [hA]
  · simp only [assign_roles]
    rw [if_neg haft]
    simp

/-- Ship sailing due east from the origin at 1 kn. -/
def shipEast : Ship :=
  { x := 0, y := 0, heading := 0, speed := 1, dest_x := 10, dest_y := 0 }

/-- Ship sailing due west toward the origin at 1 kn, 10 NM east. -/
def shipWest : Ship :=
  { x := 10, y := 0, heading := 180, speed := 1, dest_x := 0, dest_y := 0 }

/-- Head-on detection scenario: the pair collides (CPA 0 NM in 5 h). -/
def simDetect : Simulator :=
  { ships := [shipEast, shipWest], time_step := 30, safe_distance := 1,
    heading_search_range := 20, heading_search_step := 5 }

lemma evalDetect : detect_collisions axisTrig simDetect = [(0, 5, 0, 1)] := by
  unfold detect_collisions
  dsimp only
  have hlen : simDetect.ships.length = 2 := by norm_num [simDetect]
  rw [hlen]
  have hrange : List.range 2 = [0, 1] := rfl
  rw [hrange, List.flatMap_cons, List.flatMap_cons, List.flatMap_nil]
  have hr1 : List.range' (0 + 1) (2 - (0 + 1)) = [1] := rfl
  have hr2 : List.range' (1 + 1) (2 - (1 + 1)) = [] := rfl
  rw [hr1, hr2]
  norm_num [simDetect, shipEast, shipWest, List.getD, compute_cpa_and_tcpa,
    Ship.get_position_vector, Ship.get_velocity_vector, dot, vsub, vadd, smul,
    axisTrig, cosT, sinT, sqrtT, List.insertionSort, List.orderedInsert,
    List.filterMap_cons]

/-- Witness for C10 at a concrete input. -/
theorem detect_collisions_below_band_witness :
    (((0 : ℚ), (5 : ℚ), (0 : ℕ), (1 : ℕ))) ∈ detect_collisions axisTrig simDetect ∧
    ((((0 : ℚ), (5 : ℚ), (0 : ℕ), (1 : ℕ))).1 < 3 * simDetect.safe_distance ∧
     ¬ 3 * simDetect.safe_distance ≤ (((0 : ℚ), (5 : ℚ), (0 : ℕ), (1 : ℕ))).1) :=
  ⟨by rw [evalDetect]; simp,
    detect_collisions_below_band axisTrig simDetect (0, 5, 0, 1)
      (by rw [evalDetect]; simp)⟩

/-- Arrived ship: at its destination with a leftover turn budget of 5°. -/
def shipArrived : Ship :=
  { x := 5, y := 5, heading := 0, speed := 0, dest_x := 5, dest_y := 5,
    heading_adjusted := 5 }

/-- Ship heading due north at 1 kn although its destination is due east. -/
def shipCruise : Ship :=
  { x := 0, y := 0, heading := 90, speed := 1, dest_x := 10, dest_y := 0 }

/-- Tick-start scenario: no at-risk pair (CPA 5 NM ≥ 3 NM band), so the
conflict-free streak grows to 1 and no revert happens. -/
def simTick : Simulator :=
  { ships := [shipArrived, shipCruise], time_step := 30, safe_distance := 1,
    heading_search_range := 20, heading_search_step := 5 }

lemma evalTick_detect :
    detect_collisions axisTrig
      { simTick with ships := simTick.ships.map Ship.reset_heading_adjusted } = [] := by
  unfold detect_collisions
  dsimp only
  have hlen : ({ simTick with ships := simTick.ships.map Ship.reset_heading_adjusted }
      : Simulator).ships.length = 2 := by norm_num [simTick]
  rw [hlen]
  have hrange : List.range 2 = [0, 1] := rfl
  rw [hrange, List.flatMap_cons, List.flatMap_cons, List.flatMap_nil]
  have hr1 : List.range' (0 + 1) (2 - (0 + 1)) = [1] := rfl
  have hr2 : List.range' (1 + 1) (2 - (1 + 1)) = [] := rfl
  rw [hr1, hr2]
  norm_num [simTick, shipArrived, shipCruise, Ship.reset_heading_adjusted, List.getD,
    compute_cpa_and_tcpa, Ship.get_position_vector, Ship.get_velocity_vector,
    dot, vsub, vadd, smul, axisTrig, cosT, sinT, sqrtT, List.insertionSort,
    List.filterMap_cons]

lemma evalTick_start :
    tickStart axisTrig simTick
      = { simTick with
          ships := [Ship.reset_heading_adjusted shipArrived,
                    Ship.reset_heading_adjusted shipCruise],
          no_collision_count := 1 } := by
  unfold tickStart
  dsimp only
  rw [evalTick_detect]
  norm_num [simTick]

/-- Counterexample to C5 as stated: at the start of the tick on `simTick`,
the *arrived* ship 0 has its turn budget reset (from 5 to 0), although the
claim excludes arrived vessels from the reset; and the still-traveling ship
1 keeps heading 90° instead of being re-aimed at its destination heading
0°. -/
theorem tickStart_counterexample :
    (simTick.ships.getD 0 default).distance_to_destination axisTrig
        < simTick.destination_threshold ∧
    (simTick.ships.getD 0 default).heading_adjusted = 5 ∧
    ((tickStart axisTrig simTick).ships.getD 0 default).heading_adjusted = 0 ∧
    simTick.destination_threshold
        < (simTick.ships.getD 1 default).distance_to_destination axisTrig ∧
    Ship.compute_heading_to_destination axisTrig (simTick.ships.getD 1 default) = 0 ∧
    ((tickStart axisTrig simTick).ships.getD 1 default).heading = 90 := by
  refine ⟨?_, ?_, ?_, ?_, ?_, ?_⟩
  · norm_num [simTick, shipArrived, List.getD, Ship.distance_to_destination,
      axisTrig, sqrtT]
  · norm_num [simTick, shipArrived, List.getD]
  · rw [evalTick_start]
    norm_num [simTick, shipArrived, List.getD, Ship.reset_heading_adjusted]
  · norm_num [simTick, shipCruise, List.getD, Ship.distance_to_destination,
      axisTrig, sqrtT]
  · norm_num [simTick, shipCruise, List.getD, Ship.compute_heading_to_destination,
      axisTrig, atan2T]
  · rw [evalTick_start]
    norm_num [simTick, shipCruise, List.getD, Ship.reset_heading_adjusted]

/-- Witness for the amended C5 at a concrete input: on `simTick` the streak
is 1 ≤ 10, budgets are reset and headings unchanged. -/
theorem tickStart_spec_witness :
    1 < simTick.ships.length ∧
    ¬ 10 < (tickStart axisTrig simTick).no_collision_count ∧
    ((tickStart axisTrig simTick).ships.getD 1 default).heading_adjusted = 0 ∧
    ((tickStart axisTrig simTick).ships.getD 1 default).heading
      = (simTick.ships.getD 1 default).heading := by
  have hk : 1 < simTick.ships.length := by norm_num [simTick]
  have hcount : ¬ 10 < (tickStart axisTrig simTick).no_collision_count := by
    rw [evalTick_start]
    norm_num
  exact ⟨hk, hcount, (tickStart_spec axisTrig simTick 1 hk).1,
    (tickStart_spec axisTrig simTick 1 hk).2.1 hcount⟩

/-- Witness for C9 at a concrete input: on `simTick`, arrived ship 0 stays
in place and gets its arrival time stamped; traveling ship 1 advances. -/
theorem movePhase_spec_witness :
    0 < simTick.ships.length ∧
    (simTick.ships.getD 0 default).distance_to_destination axisTrig
        < simTick.destination_threshold ∧
    (((movePhase axisTrig simTick).ships.getD 0 default).x
        = (simTick.ships.getD 0 default).x ∧
     ((movePhase axisTrig simTick).ships.getD 0 default).y
        = (simTick.ships.getD 0 default).y ∧
     ((movePhase axisTrig simTick).ships.getD 0 default).arrival_time
        = some simTick.current_time) := by
  have hk : 0 < simTick.ships.length := by norm_num [simTick]
  have hnear : (simTick.ships.getD 0 default).distance_to_destination axisTrig
      < simTick.destination_threshold := by
    norm_num [simTick, shipArrived, List.getD, Ship.distance_to_destination,
      axisTrig, sqrtT]
  have harr : (simTick.ships.getD 0 default).arrival_time = none := by
    norm_num [simTick, shipArrived, List.getD]
  have h := (movePhase_spec axisTrig simTick 0 hk).1 hnear
  exact ⟨hk, hnear, h.1, h.2.1, h.2.2.1 harr⟩

/-- Stationary ship at the origin heading −45° (north-west of due east). -/
def shipCrossA : Ship :=
  { x := 0, y := 0, heading := -45, speed := 0, dest_x := 0, dest_y := 0 }

/-- Stationary ship 1 NM east of the origin heading 135°. -/
def shipCrossB : Ship :=
  { x := 1, y := 0, heading := 135, speed := 0, dest_x := 1, dest_y := 0 }

/-- Ambiguous-crossing scenario: each ship sees the other at relative
bearing +45° (port side), so the encounter is a crossing with neither
vessel on the other's starboard side. -/
def simCross : Simulator :=
  { ships := [shipCrossA, shipCrossB], time_step := 30, safe_distance := 1,
    heading_search_range := 5, heading_search_step := 5 }

lemma evalCross_bAB :
    relative_bearing_degs axisTrig (simCross.ships.getD 0 default)
      (simCross.ships.getD 1 default) = 45 := by
  unfold relative_bearing_degs
  dsimp only
  have harg : axisTrig.atan2d ((simCross.ships.getD 1 default).y
        - (simCross.ships.getD 0 default).y)
      ((simCross.ships.getD 1 default).x - (simCross.ships.getD 0 default).x)
      - (simCross.ships.getD 0 default).heading = 45 := by
    norm_num [simCross, shipCrossA, shipCrossB, List.getD, axisTrig, atan2T]
  rw [harg]
  rw [normHi, if_neg (by norm_num), normLo, if_neg (by norm_num)]

lemma evalCross_bBA :
    relative_bearing_degs axisTrig (simCross.ships.getD 1 default)
      (simCross.ships.getD 0 default) = 45 := by
  unfold relative_bearing_degs
  dsimp only
  have harg : axisTrig.atan2d ((simCross.ships.getD 0 default).y
        - (simCross.ships.getD 1 default).y)
      ((simCross.ships.getD 0 default).x - (simCross.ships.getD 1 default).x)
      - (simCross.ships.getD 1 default).heading = 45 := by
    norm_num [simCross, shipCrossA, shipCrossB, List.getD, axisTrig, atan2T]
  rw [harg]
  rw [normHi, if_neg (by norm_num), normLo, if_neg (by norm_num)]

lemma evalCross_classify :
    classify_encounter axisTrig (simCross.ships.getD 0 default)
      (simCross.ships.getD 1 default) = "crossing" := by
  unfold classify_encounter
  rw [evalCross_bAB, evalCross_bBA]
  norm_num

lemma evalCross_nsbAB :
    ¬ is_on_starboard_side axisTrig (simCross.ships.getD 0 default)
      (simCross.ships.getD 1 default) := by
  unfold is_on_starboard_side
  rw [evalCross_bAB]
  norm_num

lemma evalCross_nsbBA :
    ¬ is_on_starboard_side axisTrig (simCross.ships.getD 1 default)
      (simCross.ships.getD 0 default) := by
  unfold is_on_starboard_side
  rw [evalCross_bBA]
  norm_num

/-- Counterexample to C6 as stated: on the ambiguous crossing `simCross`,
`assign_roles` designates vessel 0 as give-way and vessel 1 as stand-on,
yet the resolution attempts vessel 1 *first* (and with the full budget):
the give-way vessel is not the one tried first. -/
theorem resolve_pair_counterexample :
    assign_roles axisTrig (simCross.ships.getD 0 default) (simCross.ships.getD 1 default)
      (classify_encounter axisTrig (simCross.ships.getD 0 default)
        (simCross.ships.getD 1 default))
      = ("Give-Way", "Stand-On") ∧
    (resolve_pair axisTrig simCross 0 1).2.2.head? = some (1, false) := by
  constructor
  · rw [evalCross_classify]
    simp only [assign_roles]
    rw [if_pos trivial, if_neg evalCross_nsbAB, if_neg evalCross_nsbBA]
    simp
  · simp only [resolve_pair]
    rw [evalCross_classify]
    rw [if_neg (by decide), if_pos rfl, if_neg evalCross_nsbAB]
    cases hB : (apply_multi_ship_starboard axisTrig simCross 1 false).1 <;> simp [hB]

/-- Witness for the amended C6 at a concrete input: the ambiguous-crossing
branch of `resolve_pair_order` instantiated on `simCross`. -/
theorem resolve_pair_order_witness :
    classify_encounter axisTrig (simCross.ships.getD 0 default)
        (simCross.ships.getD 1 default) = "crossing" ∧
    ¬ is_on_starboard_side axisTrig (simCross.ships.getD 0 default)
        (simCross.ships.getD 1 default) ∧
    ¬ is_on_starboard_side axisTrig (simCross.ships.getD 1 default)
        (simCross.ships.getD 0 default) ∧
    (resolve_pair axisTrig simCross 0 1).2.2
      = (1, false) ::
        (if (apply_multi_ship_starboard axisTrig simCross 1 false).1 then []
         else [(0, true)]) ∧
    assign_roles axisTrig (simCross.ships.getD 0 default) (simCross.ships.getD 1 default)
      "crossing" = ("Give-Way", "Stand-On") :=
  ⟨evalCross_classify, evalCross_nsbAB, evalCross_nsbBA,
    (((resolve_pair_order axisTrig simCross 0 1).2.1 evalCross_classify).2
      evalCross_nsbAB).1,
    (((resolve_pair_order axisTrig simCross 0 1).2.1 evalCross_classify).2
      evalCross_nsbAB).2.2 evalCross_nsbBA⟩

end SeaSafe
